import Mathlib

/-!
Verification development for the debate-orchestration core of
`telegram-ai-debate-bot`.

The Lean definitions below are a shallow embedding of the Python sources:

* `src/ai/models.py`            → `AIResponse`, `DebateRound`, `DebateSession`,
                                  `OpenRouterResponse`
* `src/ai/openrouter_client.py` → `extract_confidence`, `make_request`,
                                  `get_response`, `get_multiple_responses`
* `src/ai/debate_manager.py`    → the round handlers and `start_debate`

Modelling conventions:

* Python `float` confidence values are represented as `ℚ`; every confidence
  in the source is either scraped from an integer `(\d+)%` capture or one of
  the literal constants `80.0` / `85.0`, all exactly representable.
* Wall-clock timestamps are opaque to every claim; they are modelled by a
  single clock value (`now`) supplied by the environment, with `0` used for
  per-response timestamps.
* Remote-network nondeterminism is modelled by oracles: the client layer
  takes a per-attempt outcome oracle, the orchestrator takes a per-call
  `Option AIResponse` oracle standing for `OpenRouterClient.get_response`.
* A Python statement that can raise an uncaught exception is embedded as a
  function returning `Option`/`none`; `none` means "the exception propagated
  to the caller".
* Python truthiness `x or d` on an optional number is `pyOrQ` below (note
  that `0.0 or d` evaluates to `d` in Python).
-/

/-- Python `x or d` for an optional rational (`None` and `0.0` are falsy). -/
def pyOrQ (x : Option ℚ) (d : ℚ) : ℚ :=
  match x with
  | none => d
  | some v => if v = 0 then d else v

/-! ## Data model (`src/ai/models.py`) -/

/-- `AIResponse` from `src/ai/models.py`. -/
structure AIResponse where
  model_key : String
  model_name : String
  content : String
  confidence : Option ℚ
  timestamp : Nat
  tokens_used : Option Nat
deriving DecidableEq, Repr

/-- `DebateRound` from `src/ai/models.py`. -/
structure DebateRound where
  round_number : Nat
  responses : List AIResponse
  summary : Option String
  timestamp : Nat
deriving DecidableEq, Repr

/-- `DebateSession` from `src/ai/models.py`. -/
structure DebateSession where
  session_id : String
  user_id : Int
  question : String
  mode : String
  rounds : List DebateRound
  final_answer : Option String
  final_confidence : Option ℚ
  started_at : Nat
  completed_at : Option Nat
  total_tokens : Nat
deriving DecidableEq, Repr

/-- `DebateSession.add_round`. -/
def DebateSession.add_round (s : DebateSession) (r : DebateRound) : DebateSession :=
  { s with rounds := s.rounds ++ [r] }

/-- `DebateSession.complete`: sets `final_answer`, `final_confidence` and
`completed_at` together (`datetime.now()` is the clock value `now`). -/
def DebateSession.complete (s : DebateSession) (final_answer : String)
    (confidence : ℚ) (now : Nat) : DebateSession :=
  { s with final_answer := some final_answer,
           final_confidence := some confidence,
           completed_at := some now }

/-- `OpenRouterResponse` from `src/ai/models.py`, restricted to the parts the
core reads: each choice is modelled by its `message.content` (`none` when the
shape is unexpected), `usage` by its optional `total_tokens` entry. -/
structure OpenRouterResponse where
  choices : List (Option String)
  usage : Option (Option Nat)
deriving DecidableEq, Repr

/-- `OpenRouterResponse.get_content`: first choice's message content, or the
empty string when the shape is unexpected. -/
def OpenRouterResponse.get_content (r : OpenRouterResponse) : String :=
  match r.choices with
  | [] => ""
  | c :: _ => c.getD ""

/-- `OpenRouterResponse.get_tokens_used`: `usage.get('total_tokens', 0)`,
`0` when `usage` is absent. -/
def OpenRouterResponse.get_tokens_used (r : OpenRouterResponse) : Nat :=
  match r.usage with
  | none => 0
  | some u => u.getD 0

/-! ## Confidence extraction (`OpenRouterClient._extract_confidence`)

The Python method searches the reply text with four ordered regular
expressions:

1. `[Уу]веренность[:\s]+(\d+)%`
2. `[Cc]onfidence[:\s]+(\d+)%`
3. `(\d+)%\s+[уУ]веренност`
4. `(\d+)%\s+[cC]onfiden`

and returns `float` of the first match's digit group, `None` when nothing
matches.  The character classes on either side of the greedy `+` quantifiers
are pairwise disjoint (separators vs digits vs letters), so Python's
leftmost, greedy backtracking search is equivalent to the leftmost
maximal-munch scan implemented below.  `\d`/`\s` are modelled at ASCII
precision (the source never feeds non-ASCII digits). -/

/-- Python `\s` (ASCII part). -/
def isWsChar (c : Char) : Bool :=
  c == ' ' || c == '\t' || c == '\n' || c == '\r' || c == '\x0b' || c == '\x0c'

/-- The character class `[:\s]` used between the label and the number. -/
def isSepChar (c : Char) : Bool :=
  c == ':' || isWsChar c

/-- Python `\d` (ASCII digits). -/
def isDigitChar (c : Char) : Bool :=
  c.isDigit

/-- Numeric value of a digit-group capture (`float(match.group(1))`;
for a `\d+` capture the `ValueError` branch of the source is unreachable). -/
def digitsToNat (ds : List Char) : Nat :=
  ds.foldl (fun n c => 10 * n + (c.toNat - '0'.toNat)) 0

/-- Consume an exact literal character sequence. -/
def stripChars : List Char → List Char → Option (List Char)
  | [], cs => some cs
  | _ :: _, [] => none
  | l :: ls, c :: cs => if c = l then stripChars ls cs else none

/-- Match `[xX]<lit>[:\s]+(\d+)%` at the current position, returning the
captured number. -/
def matchLabelNum (low high : Char) (lit : List Char) (cs : List Char) :
    Option Nat :=
  match cs with
  | [] => none
  | c :: rest =>
    if c = low ∨ c = high then
      match stripChars lit rest with
      | none => none
      | some r1 =>
        let p1 := r1.span isSepChar
        if p1.1.isEmpty then none else
        let p2 := p1.2.span isDigitChar
        if p2.1.isEmpty then none else
        match p2.2 with
        | '%' :: _ => some (digitsToNat p2.1)
        | _ => none
    else none

/-- Match `(\d+)%\s+[xX]<lit>` at the current position, returning the
captured number. -/
def matchNumLabel (low high : Char) (lit : List Char) (cs : List Char) :
    Option Nat :=
  let p1 := cs.span isDigitChar
  if p1.1.isEmpty then none else
  match p1.2 with
  | '%' :: r2 =>
    let p2 := r2.span isWsChar
    if p2.1.isEmpty then none else
    match p2.2 with
    | [] => none
    | c :: r4 =>
      if (c = low ∨ c = high) ∧ (stripChars lit r4).isSome
      then some (digitsToNat p1.1) else none
  | _ => none

/-- `re.search`: try the matcher at each position, leftmost success wins. -/
def searchBy (m : List Char → Option Nat) : List Char → Option Nat
  | [] => none
  | c :: cs =>
    match m (c :: cs) with
    | some n => some n
    | none => searchBy m cs

/-- `OpenRouterClient._extract_confidence`: first of the four patterns that
matches anywhere in the text wins; no match yields `none`. -/
def extract_confidence (content : String) : Option ℚ :=
  let cs := content.data
  match searchBy (matchLabelNum 'У' 'у' "веренность".data) cs with
  | some n => some (n : ℚ)
  | none =>
  match searchBy (matchLabelNum 'C' 'c' "onfidence".data) cs with
  | some n => some (n : ℚ)
  | none =>
  match searchBy (matchNumLabel 'у' 'У' "веренност".data) cs with
  | some n => some (n : ℚ)
  | none =>
  match searchBy (matchNumLabel 'c' 'C' "onfiden".data) cs with
  | some n => some (n : ℚ)
  | none => none

/-! ## Backend call layer (`src/ai/openrouter_client.py`)

One network attempt inside `_make_request` either yields a `200` reply whose
body parses into an `OpenRouterResponse`, or fails.  All failure modes are
handled by the same code path (log, optionally sleep, retry): a non-2xx
status, an `asyncio.TimeoutError`, and every other exception — transport
errors, a body that fails to parse as JSON, and a body that fails
`OpenRouterResponse` validation. -/

/-- Outcome of one HTTP attempt, as distinguished by `_make_request`. -/
inductive AttemptOutcome where
  /-- Status 200, body parsed and validated. -/
  | success : OpenRouterResponse → AttemptOutcome
  /-- Non-2xx status (with its error text). -/
  | httpError : Nat → String → AttemptOutcome
  /-- `asyncio.TimeoutError`. -/
  | timeout : AttemptOutcome
  /-- Any other exception: transport error or malformed reply body. -/
  | exn : AttemptOutcome
deriving DecidableEq

/-- Whether an attempt produced a usable reply. -/
def AttemptOutcome.isSuccess : AttemptOutcome → Bool
  | .success _ => true
  | _ => false

/-- The `for attempt in range(self.retry_attempts)` loop of `_make_request`,
recursing on the number of attempts still available.  Returns the reply (or
`none` after exhausting attempts) together with the list of delays slept:
the source sleeps `self.retry_delay` after every failed attempt except the
last one (`if attempt < self.retry_attempts - 1`). -/
def make_request_go (net : Nat → AttemptOutcome) (retry_delay : ℚ) :
    Nat → Nat → Option OpenRouterResponse × List ℚ
  | _, 0 => (none, [])
  | attempt, remaining + 1 =>
    match net attempt with
    | .success r => (some r, [])
    | _ =>
      if 0 < remaining then
        let rest := make_request_go net retry_delay (attempt + 1) remaining
        (rest.1, retry_delay :: rest.2)
      else
        make_request_go net retry_delay (attempt + 1) remaining

/-- `OpenRouterClient._make_request`: retried request against the attempt
oracle `net`.  Total — every failure is absorbed; `none` is the "no
response" signal the caller receives. -/
def make_request (net : Nat → AttemptOutcome) (retry_delay : ℚ)
    (retry_attempts : Nat) : Option OpenRouterResponse × List ℚ :=
  make_request_go net retry_delay 0 retry_attempts

/-- Per-model configuration entries read by the client
(`config.models[key]`, YAML collaborator).  Fields the source reads with
`.get(...)` defaults are optional. -/
structure ClientModelConfig where
  name : String
  id : String
  temperature : Option ℚ
  max_tokens : Option Nat
  reasoning : Option String
  verbosity : Option String
deriving DecidableEq

/-- The slice of configuration the client constructor reads. -/
structure ClientConfig where
  models : List (String × ClientModelConfig)
  retry_attempts : Nat
  retry_delay : ℚ

/-- `config.get_model_config`: `self.models.get(model_key)`. -/
def getModelConfig (cfg : ClientConfig) (model_key : String) :
    Option ClientModelConfig :=
  (cfg.models.find? (fun p => p.1 == model_key)).map (fun p => p.2)

/-- A chat message (`{"role": ..., "content": ...}`). -/
structure Message where
  role : String
  content : String
deriving DecidableEq, Repr

/-- `OpenRouterClient.get_response`: resolve the model key (unknown key →
`None`), issue the retried request, and on success build an `AIResponse`
with the extracted confidence and the reply's token count.  The request
payload (model id, messages, temperature, max tokens, reasoning/verbosity
hints) only reaches the network, which is abstracted by `net`. -/
def get_response (cfg : ClientConfig) (net : Nat → AttemptOutcome)
    (model_key : String) (_messages : List Message)
    (temperature : Option ℚ) (max_tokens : Option Nat) : Option AIResponse :=
  match getModelConfig cfg model_key with
  | none => none
  | some mc =>
    let _temp := temperature.getD (mc.temperature.getD (2/10 : ℚ))
    let _tokens := max_tokens.getD (mc.max_tokens.getD 8192)
    match (make_request net cfg.retry_delay cfg.retry_attempts).1 with
    | none => none
    | some resp =>
      let content := resp.get_content
      some { model_key := model_key
             model_name := mc.name
             content := content
             confidence := extract_confidence content
             timestamp := 0
             tokens_used := some resp.get_tokens_used }

/-- `OpenRouterClient.get_multiple_responses`: one `get_response` task per
key, `asyncio.gather` preserving input order, then `None` results filtered
out.  The per-key attempt oracle models each task's network behaviour. -/
def get_multiple_responses (cfg : ClientConfig)
    (net : String → Nat → AttemptOutcome) (model_keys : List String)
    (messages : List Message) (temperature : Option ℚ)
    (max_tokens : Option Nat) : List AIResponse :=
  (model_keys.map
    (fun k => get_response cfg (net k) k messages temperature max_tokens)).filterMap id

/-! ## Debate orchestrator (`src/ai/debate_manager.py`)

`DebateManagerV2` drives the mode's round structure.  Each call of
`self.client.get_response(model_key, messages)` is abstracted by the oracle
`oracle : Nat → String → List Message → Option AIResponse` (call counter,
model key, messages); the counter is threaded through the run so distinct
calls may behave differently.  Prompt templates live in the YAML
configuration, so the environment carries them as text-producing functions;
their output reaches only the oracle. -/

/-- Per-model configuration entries read by the orchestrator
(`config.models[key]`).  `name` is read by direct indexing, the rest with
`.get(...)` defaults. -/
structure OrchModelConfig where
  name : String
  role : Option String
  specialization : Option (List String)
  color : Option String

/-- Environment of `DebateManagerV2`: the model registry (an
insertion-ordered dict), the prompt templates as filled-text producers, and
the clock snapshot.  A `prompts[key].format(...)` call in the source is the
corresponding function applied to the substituted values. -/
structure OrchEnv where
  models : List (String × OrchModelConfig)
  system_base : String
  /-- `round_1_independent` filled with role, specialization, question. -/
  round_1_independent : String → String → String → String
  /-- `round_2_critique` filled with role, specialization, other responses. -/
  round_2_critique : String → String → String → String
  /-- `round_3_improvement` filled with role, specialization, own previous
  response, critique received. -/
  round_3_improvement : String → String → String → String → String
  /-- `round_4_consensus` filled with role, specialization, all improved
  responses. -/
  round_4_consensus : String → String → String → String
  /-- `round_5_synthesis` filled with all debate data, round count, elapsed
  time, token count. -/
  round_5_synthesis : String → Nat → Nat → Nat → String
  now : Nat

/-- Oracle standing for `OpenRouterClient.get_response` as seen by the
orchestrator: call counter, model key, messages. -/
abbrev CallOracle := Nat → String → List Message → Option AIResponse

/-- `config.models[model_key]` (dict lookup; absent key raises `KeyError`). -/
def lookupModel (env : OrchEnv) (key : String) : Option OrchModelConfig :=
  (env.models.find? (fun p => p.1 == key)).map (fun p => p.2)

/-- Python `str(x)` of an optional confidence, as interpolated by
`_format_responses_for_context` (`None` prints as `"None"`; numeric
rendering is opaque to every claim). -/
def confToString : Option ℚ → String
  | none => "None"
  | some q => toString q

/-- `DebateManagerV2._format_responses_for_context`. -/
def format_responses_for_context (env : OrchEnv) (responses : List AIResponse) :
    String :=
  String.intercalate "\n" (responses.map (fun r =>
    let mc := lookupModel env r.model_key
    let role := (mc.bind (fun m => m.role)).getD "Unknown"
    let color := (mc.bind (fun m => m.color)).getD "⚪"
    color ++ " **" ++ r.model_name ++ "** (" ++ role ++ "):\n" ++
      r.content ++ "\nУверенность: " ++ confToString r.confidence ++ "%\n"))

/-- `DebateManagerV2._format_all_responses`: stage headers (1-based) followed
by each group's formatted block, joined by blank lines. -/
def format_all_responses (env : OrchEnv) (response_lists : List (List AIResponse)) :
    String :=
  String.intercalate "\n\n"
    ((response_lists.enum.map (fun p =>
      ["=== ЭТАП " ++ toString (p.1 + 1) ++ " ===",
       format_responses_for_context env p.2])).flatten)

/-- `DebateManagerV2._format_all_rounds`. -/
def format_all_rounds (env : OrchEnv) (rounds : List DebateRound) : String :=
  String.intercalate "\n\n"
    ((rounds.map (fun r =>
      ["=== РАУНД " ++ toString r.round_number ++ " ===",
       format_responses_for_context env r.responses])).flatten)

/-- Sum of `tokens_used or 0` over every response of every round — the
expression computed twice in the source (`start_debate` and
`_run_final_synthesis`). -/
def sumTokens (rounds : List DebateRound) : Nat :=
  (rounds.map (fun r =>
    (r.responses.map (fun x => x.tokens_used.getD 0)).sum)).sum

/-- The common per-model loop shared by the generation-style handlers: for
each key, index the model registry (`KeyError` → `none`), read role and
specialization with defaults, build the system/user message pair from the
handler-specific prompt, call the client, and keep the response when one was
returned (`if response:`; an `AIResponse` object is always truthy). -/
def callLoop (env : OrchEnv) (oracle : CallOracle)
    (mkPrompt : String → OrchModelConfig → String) :
    List String → Nat → Option (List AIResponse × Nat)
  | [], ctr => some ([], ctr)
  | key :: rest, ctr =>
    match lookupModel env key with
    | none => none
    | some mc =>
      let messages : List Message :=
        [⟨"system", env.system_base⟩, ⟨"user", mkPrompt key mc⟩]
      let resOpt := oracle ctr key messages
      match callLoop env oracle mkPrompt rest (ctr + 1) with
      | none => none
      | some (resps, ctr') =>
        match resOpt with
        | some r => some (r :: resps, ctr')
        | none => some (resps, ctr')

/-- `', '.join(model_config.get('specialization', []))`. -/
def specText (mc : OrchModelConfig) : String :=
  String.intercalate ", " (mc.specialization.getD [])

/-- `DebateManagerV2._run_independent_generation`. -/
def run_independent_generation (env : OrchEnv) (oracle : CallOracle)
    (question : String) (model_keys : List String) (round_num : Nat)
    (ctr : Nat) : Option (DebateRound × Nat) :=
  match callLoop env oracle
      (fun _ mc =>
        env.round_1_independent (mc.role.getD "Analyst") (specText mc) question)
      model_keys ctr with
  | none => none
  | some (resps, ctr') =>
      some (⟨round_num, resps, none, env.now⟩, ctr')

/-- `DebateManagerV2._run_mutual_critique`. -/
def run_mutual_critique (env : OrchEnv) (oracle : CallOracle)
    (_question : String) (model_keys : List String) (round_num : Nat)
    (previous_responses : List AIResponse) (ctr : Nat) :
    Option (DebateRound × Nat) :=
  let other_responses_text := format_responses_for_context env previous_responses
  match callLoop env oracle
      (fun _ mc =>
        env.round_2_critique (mc.role.getD "Analyst") (specText mc)
          other_responses_text)
      model_keys ctr with
  | none => none
  | some (resps, ctr') =>
      some (⟨round_num, resps, none, env.now⟩, ctr')

/-- The inline f-string synthesis prompt of `_run_critique_and_synthesis`. -/
def quickSynthesisPrompt (all_data question : String) : String :=
  "\n        Проанализируй все ответы и критику. Синтезируй финальный ответ.\n        \n        ДАННЫЕ ДЕБАТОВ:\n        " ++
    all_data ++ "\n        \n        Вопрос: " ++ question ++ "\n        "

/-- `DebateManagerV2._run_critique_and_synthesis`: a mutual-critique round
followed by one extra synthesis call to the fixed `'chatgpt'` backend; the
synthesis response, when present, is appended to the critique round. -/
def run_critique_and_synthesis (env : OrchEnv) (oracle : CallOracle)
    (question : String) (model_keys : List String) (round_num : Nat)
    (previous_responses : List AIResponse) (ctr : Nat) :
    Option (DebateRound × Nat) :=
  match run_mutual_critique env oracle question model_keys round_num
      previous_responses ctr with
  | none => none
  | some (critique_round, c1) =>
    let all_data := format_all_responses env
      [previous_responses, critique_round.responses]
    let messages : List Message :=
      [⟨"system", env.system_base⟩, ⟨"user", quickSynthesisPrompt all_data question⟩]
    match oracle c1 "chatgpt" messages with
    | some sr =>
        some ({ critique_round with
                  responses := critique_round.responses ++ [sr] }, c1 + 1)
    | none => some (critique_round, c1 + 1)

/-- `DebateManagerV2._run_improvement`: reads rounds 1 and 2 from the
accumulated rounds (`previous_rounds[0]`, `previous_rounds[1]`; an
`IndexError` is `none`); each model gets its own round-1 answer (first
response with its key, else a placeholder) plus the other models'
critiques. -/
def run_improvement (env : OrchEnv) (oracle : CallOracle)
    (_question : String) (model_keys : List String) (round_num : Nat)
    (previous_rounds : List DebateRound) (ctr : Nat) :
    Option (DebateRound × Nat) :=
  match previous_rounds.get? 0, previous_rounds.get? 1 with
  | some round1, some round2 =>
    let initial_responses := round1.responses
    let critique_responses := round2.responses
    match callLoop env oracle
        (fun key mc =>
          let your_previous :=
            initial_responses.find? (fun r => r.model_key == key)
          let critique_received := format_responses_for_context env
            (critique_responses.filter (fun r => r.model_key != key))
          env.round_3_improvement (mc.role.getD "Analyst") (specText mc)
            ((your_previous.map (fun r => r.content)).getD "Нет предыдущего ответа")
            critique_received)
        model_keys ctr with
    | none => none
    | some (resps, ctr') =>
        some (⟨round_num, resps, none, env.now⟩, ctr')
  | _, _ => none

/-- The inline f-string synthesis prompt of `_run_improvement_and_synthesis`. -/
def standardSynthesisPrompt (all_rounds_data question : String) : String :=
  "\n        Синтезируй финальный ответ на основе всех раундов дебатов.\n        \n        ДАННЫЕ ВСЕХ РАУНДОВ:\n        " ++
    all_rounds_data ++ "\n        \n        Вопрос: " ++ question ++ "\n        "

/-- `DebateManagerV2._run_improvement_and_synthesis`: an improvement round
followed by one synthesis call over the whole round history so far. -/
def run_improvement_and_synthesis (env : OrchEnv) (oracle : CallOracle)
    (question : String) (model_keys : List String) (round_num : Nat)
    (previous_rounds : List DebateRound) (ctr : Nat) :
    Option (DebateRound × Nat) :=
  match run_improvement env oracle question model_keys round_num
      previous_rounds ctr with
  | none => none
  | some (improvement_round, c1) =>
    let all_rounds_data := format_all_rounds env
      (previous_rounds ++ [improvement_round])
    let messages : List Message :=
      [⟨"system", env.system_base⟩,
       ⟨"user", standardSynthesisPrompt all_rounds_data question⟩]
    match oracle c1 "chatgpt" messages with
    | some sr =>
        some ({ improvement_round with
                  responses := improvement_round.responses ++ [sr] }, c1 + 1)
    | none => some (improvement_round, c1 + 1)

/-- `DebateManagerV2._run_consensus_building`: each model sees the latest
round's responses (`previous_rounds[-1]`; an `IndexError` is `none`). -/
def run_consensus_building (env : OrchEnv) (oracle : CallOracle)
    (_question : String) (model_keys : List String) (round_num : Nat)
    (previous_rounds : List DebateRound) (ctr : Nat) :
    Option (DebateRound × Nat) :=
  match previous_rounds.getLast? with
  | none => none
  | some lastRound =>
    let all_improved_text := format_responses_for_context env lastRound.responses
    match callLoop env oracle
        (fun _ mc =>
          env.round_4_consensus (mc.role.getD "Analyst") (specText mc)
            all_improved_text)
        model_keys ctr with
    | none => none
    | some (resps, ctr') =>
        some (⟨round_num, resps, none, env.now⟩, ctr')

/-- `DebateManagerV2._run_final_synthesis`: one call to the designated
`'chatgpt'` backend over the full formatted history; on success a fresh
one-response round, on failure `session.rounds[-1]` — the previous round
object itself — is returned (an `IndexError` on an empty session is
`none`). -/
def run_final_synthesis (env : OrchEnv) (oracle : CallOracle)
    (_question : String) (round_num : Nat) (session : DebateSession)
    (ctr : Nat) : Option (DebateRound × Nat) :=
  let all_debate_data := format_all_rounds env session.rounds
  let total_tokens := sumTokens session.rounds
  let elapsed_time := env.now - session.started_at
  let messages : List Message :=
    [⟨"system", env.system_base⟩,
     ⟨"user", env.round_5_synthesis all_debate_data session.rounds.length
        elapsed_time total_tokens⟩]
  match oracle ctr "chatgpt" messages with
  | some sr => some (⟨round_num, [sr], none, env.now⟩, ctr + 1)
  | none =>
    match session.rounds.getLast? with
    | none => none
    | some lastRound => some (lastRound, ctr + 1)

/-- The key function `lambda r: r.confidence or 0` of the fallback `max`. -/
def confKey (r : AIResponse) : ℚ :=
  pyOrQ r.confidence 0

/-- Python `max(responses, key=lambda r: r.confidence or 0)`: scan left to
right, replace the current best only on a strictly greater key, so the first
maximum wins; the empty sequence has no maximum (`ValueError`). -/
def maxByConf : List AIResponse → Option AIResponse
  | [] => none
  | x :: xs =>
      some (xs.foldl (fun cur y => if confKey cur < confKey y then y else cur) x)

/-- `DebateManagerV2._synthesize_final_answer` (the fallback synthesis
policy): ask `'chatgpt'` to synthesize; on failure take the response with
the highest `confidence or 0` from the last round (Python `max` keeps the
first maximum; `max` of an empty sequence raises `ValueError`, embedded as
`none`).  Returns the answer, the confidence, and the advanced counter. -/
def synthesize_final_answer (env : OrchEnv) (oracle : CallOracle)
    (question : String) (session : DebateSession) (ctr : Nat) :
    Option (String × ℚ × Nat) :=
  let all_responses_text := format_all_rounds env session.rounds
  let messages : List Message :=
    [⟨"system", env.system_base⟩,
     ⟨"user", "Вопрос: " ++ question ++ "\n\nВсе ответы из дебатов:\n" ++
        all_responses_text ++ "\n\nСинтезируй финальный ответ."⟩]
  match oracle ctr "chatgpt" messages with
  | some sr => some (sr.content, pyOrQ sr.confidence 85, ctr + 1)
  | none =>
    match session.rounds.getLast? with
    | none => none
    | some last_round =>
      match maxByConf last_round.responses with
      | none => none
      | some best => some (best.content, pyOrQ best.confidence 80, ctr + 1)

/-- One entry of a mode's `structure` list (YAML collaborator):
`{'round': ..., 'type': ..., 'name': ...}`. -/
structure RoundInfo where
  round : Nat
  type : String
  name : String

/-- The dispatch `if/elif` chain in the round loop of `start_debate`.
`some (some r, c)` appends round `r`, `some (none, c)` is the
unknown-round-type `continue` (warn and skip), `none` is a propagated
exception.  The critique-style branches read `session.rounds[-1].responses`
before invoking their handler. -/
def dispatchRound (env : OrchEnv) (oracle : CallOracle) (question : String)
    (model_keys : List String) (info : RoundInfo) (session : DebateSession)
    (ctr : Nat) : Option (Option DebateRound × Nat) :=
  if info.type == "independent_generation" then
    match run_independent_generation env oracle question model_keys info.round ctr with
    | none => none
    | some (r, c) => some (some r, c)
  else if info.type == "mutual_critique" then
    match session.rounds.getLast? with
    | none => none
    | some prev =>
      match run_mutual_critique env oracle question model_keys info.round
          prev.responses ctr with
      | none => none
      | some (r, c) => some (some r, c)
  else if info.type == "critique_and_synthesis" then
    match session.rounds.getLast? with
    | none => none
    | some prev =>
      match run_critique_and_synthesis env oracle question model_keys info.round
          prev.responses ctr with
      | none => none
      | some (r, c) => some (some r, c)
  else if info.type == "improvement" then
    match run_improvement env oracle question model_keys info.round
        session.rounds ctr with
    | none => none
    | some (r, c) => some (some r, c)
  else if info.type == "improvement_and_synthesis" then
    match run_improvement_and_synthesis env oracle question model_keys info.round
        session.rounds ctr with
    | none => none
    | some (r, c) => some (some r, c)
  else if info.type == "consensus_building" then
    match run_consensus_building env oracle question model_keys info.round
        session.rounds ctr with
    | none => none
    | some (r, c) => some (some r, c)
  else if info.type == "final_synthesis" then
    match run_final_synthesis env oracle question info.round session ctr with
    | none => none
    | some (r, c) => some (some r, c)
  else
    some (none, ctr)

/-- The `for round_info in debate_mode['structure']` loop of `start_debate`:
dispatch each entry in order, appending the produced round (if any) via
`session.add_round`. -/
def runStructure (env : OrchEnv) (oracle : CallOracle) (question : String)
    (model_keys : List String) :
    List RoundInfo → DebateSession → Nat → Option (DebateSession × Nat)
  | [], session, ctr => some (session, ctr)
  | info :: rest, session, ctr =>
    match dispatchRound env oracle question model_keys info session ctr with
    | none => none
    | some (none, c) => runStructure env oracle question model_keys rest session c
    | some (some r, c) =>
        runStructure env oracle question model_keys rest (session.add_round r) c

/-- The completion tail of `start_debate`: `session.complete(...)` followed
by the token sum assignment (`_save_debate` is wrapped in `try/except` and
never raises; persistence is out of scope). -/
def finishSession (env : OrchEnv) (session : DebateSession)
    (final_answer : String) (final_confidence : ℚ) : DebateSession :=
  let s1 := session.complete final_answer final_confidence env.now
  { s1 with total_tokens := sumTokens s1.rounds }

/-- The `DebateSession(session_id=..., user_id=..., question=..., mode=...)`
constructor call of `start_debate`: every other field takes its pydantic
default (`rounds=[]`, `final_answer=None`, `final_confidence=None`,
`completed_at=None`, `total_tokens=0`, `started_at=datetime.now()`). -/
def newSession (session_id : String) (user_id : Int) (question mode : String)
    (now : Nat) : DebateSession :=
  { session_id := session_id
    user_id := user_id
    question := question
    mode := mode
    rounds := []
    final_answer := none
    final_confidence := none
    started_at := now
    completed_at := none
    total_tokens := 0 }

/-- `DebateManagerV2.start_debate`.  The mode registry lookup
(`config.debate_modes.get(mode, ...)`) is externalized: `mode_structure` is
the resolved `debate_mode['structure']` list and `mode` the display label.
`session_id` stands for the fresh `uuid4`; `model_keys` defaults to the
registry's key list.  `none` is an uncaught exception reaching the caller. -/
def start_debate (env : OrchEnv) (oracle : CallOracle) (session_id : String)
    (user_id : Int) (question : String) (mode : String)
    (mode_structure : List RoundInfo) (model_keys : Option (List String)) :
    Option DebateSession :=
  let keys := model_keys.getD (env.models.map (fun p => p.1))
  match runStructure env oracle question keys mode_structure
      (newSession session_id user_id question mode env.now) 0 with
  | none => none
  | some (session, ctr) =>
    match mode_structure.getLast? with
    | none => none
    | some lastInfo =>
      if lastInfo.type != "final_synthesis" then
        match synthesize_final_answer env oracle question session ctr with
        | none => none
        | some (final_answer, final_confidence, _) =>
            some (finishSession env session final_answer final_confidence)
      else
        match session.rounds.getLast? with
        | none => none
        | some lastRound =>
          match lastRound.responses.head? with
          | none => none
          | some last_response =>
              some (finishSession env session last_response.content
                (pyOrQ last_response.confidence 85))

/-! ## Concrete fixtures

The mode structures live in `config.yaml`, which is not part of the core
sources; the two structures used by concrete runs below are reconstructed
from the specification. -/

/-- Modelled from the spec: the `config.yaml` debate-mode registry is
missing from the sources; §8 fixes mode `"quick"` as
`[independent_generation, critique_and_synthesis]` with 1-based round
numbers. -/
def quickStructure : List RoundInfo :=
  [⟨1, "independent_generation", "Независимая генерация"⟩,
   ⟨2, "critique_and_synthesis", "Критика и синтез"⟩]

/-- Modelled from the spec: the `config.yaml` debate-mode registry is
missing from the sources; the §4.3 round-type table together with the
`round_1_independent` … `round_5_synthesis` prompt keys fixes the deep
(five-round) mode as below, ending in `final_synthesis`. -/
def deepStructure : List RoundInfo :=
  [⟨1, "independent_generation", "Независимая генерация"⟩,
   ⟨2, "mutual_critique", "Взаимная критика"⟩,
   ⟨3, "improvement", "Улучшение"⟩,
   ⟨4, "consensus_building", "Поиск консенсуса"⟩,
   ⟨5, "final_synthesis", "Финальный синтез"⟩]

/-- A two-model registry for concrete runs (the `'chatgpt'` synthesis
backend is among them, as in the source's four-model configuration). -/
def envW : OrchEnv :=
  { models :=
      [("gemini", ⟨"Gemini", some "Critic", some ["logic"], some "🔵"⟩),
       ("chatgpt", ⟨"ChatGPT", some "Synthesizer", some ["synthesis"], some "🟢"⟩)]
    system_base := "base"
    round_1_independent := fun role spec q => role ++ "|" ++ spec ++ "|" ++ q
    round_2_critique := fun role spec other => role ++ "|" ++ spec ++ "|" ++ other
    round_3_improvement := fun role spec prev crit =>
      role ++ "|" ++ spec ++ "|" ++ prev ++ "|" ++ crit
    round_4_consensus := fun role spec all => role ++ "|" ++ spec ++ "|" ++ all
    round_5_synthesis := fun data r t tok =>
      data ++ "|" ++ toString r ++ "|" ++ toString t ++ "|" ++ toString tok
    now := 100 }

/-- A response as the client layer itself would deliver it: the confidence
is extracted from the content, the token count is always present. -/
def mkResp (key name content : String) (tokens : Nat) : AIResponse :=
  { model_key := key
    model_name := name
    content := content
    confidence := extract_confidence content
    timestamp := 0
    tokens_used := some tokens }

/-- Oracle on which every backend call fails. -/
def oracleAllFail : CallOracle := fun _ _ _ => none

/-- Oracle for the deep counterexample run: every call succeeds except the
final-synthesis call, which is call number 8 (two models over four rounds). -/
def oracleDeepSynthFail : CallOracle := fun ctr key _ =>
  if ctr == 8 then none
  else some (mkResp key key ("Ответ " ++ toString ctr ++ ". Уверенность: 90%") 7)

/-! ## Client-layer lemma infrastructure -/

/-- When every attempt in the window fails, the retry loop of
`_make_request` consults each attempt once, sleeps the fixed delay between
consecutive attempts, and falls through to `None`. -/
theorem make_request_go_all_fail (net : Nat → AttemptOutcome) (d : ℚ) :
    ∀ (remaining attempt : Nat),
      (∀ k, attempt ≤ k → k < attempt + remaining → (net k).isSuccess = false) →
      make_request_go net d attempt remaining =
        (none, List.replicate (remaining - 1) d) := by
  intro remaining
  induction remaining with
  | zero => intro a _; rfl
  | succ rem ih =>
    intro a hfail
    have ha : (net a).isSuccess = false := hfail a le_rfl (by omega)
    simp only [make_request_go]
    cases hnet : net a
    case success r =>
      rw [hnet] at ha
      simp [AttemptOutcome.isSuccess] at ha
    all_goals
      cases rem with
      | zero => simp [make_request_go]
      | succ rem' =>
        rw [if_pos (by omega)]
        rw [ih (a + 1) (fun k hk1 hk2 => hfail k (by omega) (by omega))]
        simp [List.replicate_succ]

/-- First-maximum decomposition of the fallback `max` scan: starting from
`cur`, the fold returns either `cur` itself (nothing beats it) or the first
strictly-greater element of the list, which every later element fails to
beat. -/
theorem maxByConf_foldl (xs : List AIResponse) :
    ∀ (cur b : AIResponse),
      b = xs.foldl (fun c y => if confKey c < confKey y then y else c) cur →
      (b = cur ∧ ∀ r ∈ xs, confKey r ≤ confKey cur) ∨
      (∃ l1 l2, xs = l1 ++ b :: l2 ∧ confKey cur < confKey b ∧
        (∀ r ∈ l1, confKey r < confKey b) ∧
        (∀ r ∈ l2, confKey r ≤ confKey b)) := by
  induction xs with
  | nil =>
    intro cur b hb
    exact Or.inl ⟨hb, by simp⟩
  | cons y ys ih =>
    intro cur b hb
    by_cases hcmp : confKey cur < confKey y
    · have hb' : b = ys.foldl (fun c x => if confKey c < confKey x then x else c) y := by
        rw [hb]; simp [List.foldl_cons, if_pos hcmp]
      rcases ih y b hb' with ⟨hbcur, hall⟩ | ⟨l1, l2, heq, hlt, hpre, hsuf⟩
      · right
        refine ⟨[], ys, ?_, ?_, by simp, ?_⟩
        · rw [hbcur]; rfl
        · rw [hbcur]; exact hcmp
        · rw [hbcur]; exact hall
      · right
        refine ⟨y :: l1, l2, ?_, lt_trans hcmp hlt, ?_, hsuf⟩
        · rw [heq]; rfl
        · intro r hr
          rcases List.mem_cons.mp hr with hr | hr
          · rw [hr]; exact hlt
          · exact hpre r hr
    · have hb' : b = ys.foldl (fun c x => if confKey c < confKey x then x else c) cur := by
        rw [hb]; simp [List.foldl_cons, if_neg hcmp]
      rcases ih cur b hb' with ⟨hbcur, hall⟩ | ⟨l1, l2, heq, hlt, hpre, hsuf⟩
      · left
        refine ⟨hbcur, ?_⟩
        intro r hr
        rcases List.mem_cons.mp hr with hr | hr
        · rw [hr]; exact le_of_not_lt hcmp
        · exact hall r hr
      · right
        refine ⟨y :: l1, l2, ?_, hlt, ?_, hsuf⟩
        · rw [heq]; rfl
        · intro r hr
          rcases List.mem_cons.mp hr with hr | hr
          · rw [hr]; exact lt_of_le_of_lt (le_of_not_lt hcmp) hlt
          · exact hpre r hr

/-- Python `max(responses, key=lambda r: r.confidence or 0)` picks the first
element attaining the maximal key: everything before it is strictly smaller,
everything after it is no larger. -/
theorem maxByConf_first_max (rs : List AIResponse) (best : AIResponse)
    (h : maxByConf rs = some best) :
    ∃ l1 l2, rs = l1 ++ best :: l2 ∧
      (∀ r ∈ l1, confKey r < confKey best) ∧
      (∀ r ∈ l2, confKey r ≤ confKey best) := by
  cases rs with
  | nil => exact absurd h (by simp [maxByConf])
  | cons x xs =>
    have hbest : best = xs.foldl (fun c y => if confKey c < confKey y then y else c) x := by
      have hx := h
      simp only [maxByConf, Option.some.injEq] at hx
      exact hx.symm
    rcases maxByConf_foldl xs x best hbest with ⟨hb, hall⟩ | ⟨l1, l2, heq, hlt, hpre, hsuf⟩
    · refine ⟨[], xs, ?_, by simp, ?_⟩
      · rw [hb]; rfl
      · intro r hr
        rw [hb]
        exact hall r hr
    · refine ⟨x :: l1, l2, ?_, ?_, hsuf⟩
      · rw [heq]; rfl
      · intro r hr
        rcases List.mem_cons.mp hr with hr | hr
        · rw [hr]; exact hlt
        · exact hpre r hr

/-! ## Wellformed mode structures

`wfFrom k infos` says the structure entries after `k` already-recorded
rounds are shaped like the named modes of the configuration: consecutive
1-based round numbers, recognized round types, and each type's contextual
prerequisites (a critique/consensus round has a predecessor, an improvement
round has two, `final_synthesis` only terminates a structure).  The quick,
standard and deep structures all satisfy `wfFrom 0`. -/

/-- The round types recognized by the dispatch chain of `start_debate`. -/
def recognizedType (t : String) : Bool :=
  t == "independent_generation" || t == "mutual_critique" ||
  t == "critique_and_synthesis" || t == "improvement" ||
  t == "improvement_and_synthesis" || t == "consensus_building" ||
  t == "final_synthesis"

/-- Wellformedness of the remaining structure entries after `k` rounds. -/
def wfFrom : Nat → List RoundInfo → Bool
  | _, [] => true
  | k, info :: rest =>
    (info.round == k + 1) &&
    recognizedType info.type &&
    (info.type == "independent_generation" || Nat.ble 1 k) &&
    (!(info.type == "improvement" || info.type == "improvement_and_synthesis")
       || Nat.ble 2 k) &&
    (!(info.type == "final_synthesis") || rest.isEmpty) &&
    wfFrom (k + 1) rest

/-- Every key the orchestrator is given resolves in the model registry. -/
def keysValid (env : OrchEnv) (keys : List String) : Bool :=
  keys.all (fun k => (lookupModel env k).isSome)

/-- `[1, 2, …, n]`: the round-number sequence the data-model invariant
prescribes for `n` recorded rounds. -/
def seqNums : Nat → List Nat
  | 0 => []
  | n + 1 => seqNums n ++ [n + 1]

theorem seqNums_length (n : Nat) : (seqNums n).length = n := by
  induction n with
  | zero => rfl
  | succ n ih => simp [seqNums, ih]

theorem seqNums_getLast? (n : Nat) (h : 0 < n) :
    (seqNums n).getLast? = some n := by
  cases n with
  | zero => exact absurd h (by simp)
  | succ n => simp [seqNums]

/-- `getLast?` commutes with `map`. -/
theorem getLast?_map {α β : Type} (f : α → β) (l : List α) :
    (l.map f).getLast? = l.getLast?.map f := by
  induction l with
  | nil => rfl
  | cons a l ih =>
    cases l with
    | nil => rfl
    | cons b l => simpa using ih

/-- `callLoop` succeeds whenever every key resolves, and advances the call
counter once per key. -/
theorem callLoop_isSome (env : OrchEnv) (oracle : CallOracle)
    (mkPrompt : String → OrchModelConfig → String) :
    ∀ (keys : List String) (ctr : Nat), keysValid env keys = true →
      ∃ resps, callLoop env oracle mkPrompt keys ctr =
        some (resps, ctr + keys.length) := by
  intro keys
  induction keys with
  | nil => intro ctr _; exact ⟨[], rfl⟩
  | cons k rest ih =>
    intro ctr hvalid
    simp only [keysValid, List.all_cons, Bool.and_eq_true] at hvalid
    obtain ⟨hk, hrest⟩ := hvalid
    obtain ⟨mc, hmc⟩ := Option.isSome_iff_exists.mp hk
    obtain ⟨resps, hrec⟩ := ih (ctr + 1) hrest
    refine ⟨?_, ?_⟩
    · exact match oracle ctr k [⟨"system", env.system_base⟩, ⟨"user", mkPrompt k mc⟩] with
        | some r => r :: resps
        | none => resps
    · simp only [callLoop, hmc, hrec]
      cases oracle ctr k [⟨"system", env.system_base⟩, ⟨"user", mkPrompt k mc⟩] with
      | none => simp [Nat.add_comm, Nat.add_assoc, Nat.add_left_comm]
      | some r => simp [Nat.add_comm, Nat.add_assoc, Nat.add_left_comm]

/-! Handler lemmas: under its contextual precondition each handler returns a
round carrying exactly the round number it was dispatched with — except the
final-synthesis fallback, which returns the previous round object. -/

theorem run_independent_generation_spec (env : OrchEnv) (oracle : CallOracle)
    (q : String) (keys : List String) (rn ctr : Nat)
    (hkeys : keysValid env keys = true) :
    ∃ r c, run_independent_generation env oracle q keys rn ctr = some (r, c) ∧
      r.round_number = rn := by
  obtain ⟨resps, h⟩ := callLoop_isSome env oracle
    (fun _ mc => env.round_1_independent (mc.role.getD "Analyst") (specText mc) q)
    keys ctr hkeys
  exact ⟨_, _, by simp only [run_independent_generation]; rw [h], rfl⟩

theorem run_mutual_critique_spec (env : OrchEnv) (oracle : CallOracle)
    (q : String) (keys : List String) (rn ctr : Nat)
    (prev : List AIResponse) (hkeys : keysValid env keys = true) :
    ∃ r c, run_mutual_critique env oracle q keys rn prev ctr = some (r, c) ∧
      r.round_number = rn := by
  obtain ⟨resps, h⟩ := callLoop_isSome env oracle
    (fun _ mc => env.round_2_critique (mc.role.getD "Analyst") (specText mc)
      (format_responses_for_context env prev))
    keys ctr hkeys
  exact ⟨_, _, by simp only [run_mutual_critique]; rw [h], rfl⟩

theorem run_critique_and_synthesis_spec (env : OrchEnv) (oracle : CallOracle)
    (q : String) (keys : List String) (rn ctr : Nat)
    (prev : List AIResponse) (hkeys : keysValid env keys = true) :
    ∃ r c, run_critique_and_synthesis env oracle q keys rn prev ctr = some (r, c) ∧
      r.round_number = rn := by
  obtain ⟨cr, c1, hcr, hnum⟩ :=
    run_mutual_critique_spec env oracle q keys rn ctr prev hkeys
  simp only [run_critique_and_synthesis, hcr]
  cases oracle c1 "chatgpt"
      [⟨"system", env.system_base⟩,
       ⟨"user", quickSynthesisPrompt
          (format_all_responses env [prev, cr.responses]) q⟩] with
  | none => exact ⟨cr, c1 + 1, rfl, hnum⟩
  | some sr =>
      exact ⟨{ cr with responses := cr.responses ++ [sr] }, c1 + 1, rfl, hnum⟩

theorem run_improvement_spec (env : OrchEnv) (oracle : CallOracle)
    (q : String) (keys : List String) (rn ctr : Nat)
    (prev : List DebateRound) (hprev : 2 ≤ prev.length)
    (hkeys : keysValid env keys = true) :
    ∃ r c, run_improvement env oracle q keys rn prev ctr = some (r, c) ∧
      r.round_number = rn := by
  match prev, hprev with
  | r0 :: r1 :: rest, _ =>
    obtain ⟨resps, h⟩ := callLoop_isSome env oracle
      (fun key mc =>
        let your_previous := r0.responses.find? (fun r => r.model_key == key)
        let critique_received := format_responses_for_context env
          (r1.responses.filter (fun r => r.model_key != key))
        env.round_3_improvement (mc.role.getD "Analyst") (specText mc)
          ((your_previous.map (fun r => r.content)).getD "Нет предыдущего ответа")
          critique_received)
      keys ctr hkeys
    refine ⟨⟨rn, resps, none, env.now⟩, ctr + keys.length, ?_, rfl⟩
    simp only [run_improvement, List.get?_cons_zero, List.get?_cons_succ]
    rw [h]

theorem run_improvement_and_synthesis_spec (env : OrchEnv) (oracle : CallOracle)
    (q : String) (keys : List String) (rn ctr : Nat)
    (prev : List DebateRound) (hprev : 2 ≤ prev.length)
    (hkeys : keysValid env keys = true) :
    ∃ r c, run_improvement_and_synthesis env oracle q keys rn prev ctr =
        some (r, c) ∧ r.round_number = rn := by
  obtain ⟨ir, c1, hir, hnum⟩ :=
    run_improvement_spec env oracle q keys rn ctr prev hprev hkeys
  simp only [run_improvement_and_synthesis, hir]
  cases oracle c1 "chatgpt"
      [⟨"system", env.system_base⟩,
       ⟨"user", standardSynthesisPrompt
          (format_all_rounds env (prev ++ [ir])) q⟩] with
  | none => exact ⟨ir, c1 + 1, rfl, hnum⟩
  | some sr =>
      exact ⟨{ ir with responses := ir.responses ++ [sr] }, c1 + 1, rfl, hnum⟩

theorem run_consensus_building_spec (env : OrchEnv) (oracle : CallOracle)
    (q : String) (keys : List String) (rn ctr : Nat)
    (prev : List DebateRound) (hprev : prev ≠ [])
    (hkeys : keysValid env keys = true) :
    ∃ r c, run_consensus_building env oracle q keys rn prev ctr = some (r, c) ∧
      r.round_number = rn := by
  obtain ⟨lastRound, hlast⟩ :=
    Option.isSome_iff_exists.mp (List.getLast?_isSome.mpr hprev)
  obtain ⟨resps, h⟩ := callLoop_isSome env oracle
    (fun _ mc => env.round_4_consensus (mc.role.getD "Analyst") (specText mc)
      (format_responses_for_context env lastRound.responses))
    keys ctr hkeys
  exact ⟨_, _, by simp only [run_consensus_building, hlast]; rw [h], rfl⟩

theorem run_final_synthesis_spec (env : OrchEnv) (oracle : CallOracle)
    (q : String) (rn ctr : Nat) (session : DebateSession)
    (hprev : session.rounds ≠ []) :
    ∃ r c, run_final_synthesis env oracle q rn session ctr = some (r, c) ∧
      (r.round_number = rn ∨ session.rounds.getLast? = some r) := by
  obtain ⟨lastRound, hlast⟩ :=
    Option.isSome_iff_exists.mp (List.getLast?_isSome.mpr hprev)
  simp only [run_final_synthesis]
  cases oracle ctr "chatgpt"
      [⟨"system", env.system_base⟩,
       ⟨"user", env.round_5_synthesis (format_all_rounds env session.rounds)
          session.rounds.length (env.now - session.started_at)
          (sumTokens session.rounds)⟩] with
  | none => exact ⟨lastRound, ctr + 1, by simp [hlast], Or.inr hlast⟩
  | some sr => exact ⟨⟨rn, [sr], none, env.now⟩, ctr + 1, rfl, Or.inl rfl⟩

/-- Dispatching one recognized structure entry appends exactly one round; it
carries the entry's round number, except that a failed final synthesis hands
back the previous round object. -/
theorem dispatchRound_spec (env : OrchEnv) (oracle : CallOracle) (q : String)
    (keys : List String) (info : RoundInfo) (session : DebateSession)
    (ctr : Nat) (hkeys : keysValid env keys = true)
    (hrec : recognizedType info.type = true)
    (h1 : info.type = "independent_generation" ∨ 1 ≤ session.rounds.length)
    (h2 : info.type = "improvement" ∨ info.type = "improvement_and_synthesis" →
      2 ≤ session.rounds.length) :
    ∃ r c, dispatchRound env oracle q keys info session ctr = some (some r, c) ∧
      (r.round_number = info.round ∨
        (info.type = "final_synthesis" ∧ session.rounds.getLast? = some r)) := by
  have hne : 1 ≤ session.rounds.length → session.rounds ≠ [] := by
    intro hl
    exact List.length_pos.mp hl
  simp only [recognizedType, Bool.or_eq_true, beq_iff_eq] at hrec
  rcases hrec with ((((((h | h) | h) | h) | h) | h) | h)
  · obtain ⟨r, c, hr, hn⟩ :=
      run_independent_generation_spec env oracle q keys info.round ctr hkeys
    exact ⟨r, c, by simp [dispatchRound, h, hr], Or.inl hn⟩
  · have hlen : 1 ≤ session.rounds.length := by
      rcases h1 with h' | h'
      · rw [h] at h'; exact absurd h' (by decide)
      · exact h'
    obtain ⟨prev, hprev⟩ :=
      Option.isSome_iff_exists.mp (List.getLast?_isSome.mpr (hne hlen))
    obtain ⟨r, c, hr, hn⟩ :=
      run_mutual_critique_spec env oracle q keys info.round ctr prev.responses hkeys
    exact ⟨r, c, by simp [dispatchRound, h, hprev, hr], Or.inl hn⟩
  · have hlen : 1 ≤ session.rounds.length := by
      rcases h1 with h' | h'
      · rw [h] at h'; exact absurd h' (by decide)
      · exact h'
    obtain ⟨prev, hprev⟩ :=
      Option.isSome_iff_exists.mp (List.getLast?_isSome.mpr (hne hlen))
    obtain ⟨r, c, hr, hn⟩ :=
      run_critique_and_synthesis_spec env oracle q keys info.round ctr
        prev.responses hkeys
    exact ⟨r, c, by simp [dispatchRound, h, hprev, hr], Or.inl hn⟩
  · obtain ⟨r, c, hr, hn⟩ :=
      run_improvement_spec env oracle q keys info.round ctr session.rounds
        (h2 (Or.inl h)) hkeys
    exact ⟨r, c, by simp [dispatchRound, h, hr], Or.inl hn⟩
  · obtain ⟨r, c, hr, hn⟩ :=
      run_improvement_and_synthesis_spec env oracle q keys info.round ctr
        session.rounds (h2 (Or.inr h)) hkeys
    exact ⟨r, c, by simp [dispatchRound, h, hr], Or.inl hn⟩
  · have hlen : 1 ≤ session.rounds.length := by
      rcases h1 with h' | h'
      · rw [h] at h'; exact absurd h' (by decide)
      · exact h'
    obtain ⟨r, c, hr, hn⟩ :=
      run_consensus_building_spec env oracle q keys info.round ctr
        session.rounds (hne hlen) hkeys
    exact ⟨r, c, by simp [dispatchRound, h, hr], Or.inl hn⟩
  · have hlen : 1 ≤ session.rounds.length := by
      rcases h1 with h' | h'
      · rw [h] at h'; exact absurd h' (by decide)
      · exact h'
    obtain ⟨r, c, hr, hn⟩ :=
      run_final_synthesis_spec env oracle q info.round ctr session (hne hlen)
    refine ⟨r, c, by simp [dispatchRound, h, hr], ?_⟩
    rcases hn with hn | hn
    · exact Or.inl hn
    · exact Or.inr ⟨h, hn⟩

/-- The round loop only ever touches `rounds`: completion fields survive it
unchanged. -/
theorem runStructure_fields (env : OrchEnv) (oracle : CallOracle) (q : String)
    (keys : List String) :
    ∀ (infos : List RoundInfo) (s : DebateSession) (ctr : Nat)
      (s' : DebateSession) (ctr' : Nat),
      runStructure env oracle q keys infos s ctr = some (s', ctr') →
      s'.final_answer = s.final_answer ∧ s'.completed_at = s.completed_at ∧
        s'.final_confidence = s.final_confidence := by
  intro infos
  induction infos with
  | nil =>
    intro s ctr s' ctr' h
    simp only [runStructure, Option.some.injEq, Prod.mk.injEq] at h
    rw [← h.1]
    exact ⟨rfl, rfl, rfl⟩
  | cons info rest ih =>
    intro s ctr s' ctr' h
    simp only [runStructure] at h
    cases hd : dispatchRound env oracle q keys info s ctr with
    | none => rw [hd] at h; exact absurd h (by simp)
    | some pr =>
      rw [hd] at h
      obtain ⟨ro, c⟩ := pr
      cases ro with
      | none => exact ih s c s' ctr' h
      | some r => exact ih (s.add_round r) c s' ctr' h

/-- Core invariant of the round loop: on a wellformed remaining structure it
never raises, appends exactly one recorded round per entry, and the recorded
round numbers extend `[1, …]` — except that a structure ending in
`final_synthesis` whose synthesis call failed ends with a duplicate of the
previous round, so the last number repeats. -/
theorem runStructure_spec (env : OrchEnv) (oracle : CallOracle) (q : String)
    (keys : List String) (hkeys : keysValid env keys = true) :
    ∀ (infos : List RoundInfo) (s : DebateSession) (ctr : Nat),
      wfFrom s.rounds.length infos = true →
      s.rounds.map (fun r => r.round_number) = seqNums s.rounds.length →
      ∃ s' ctr', runStructure env oracle q keys infos s ctr = some (s', ctr') ∧
        s'.rounds.length = s.rounds.length + infos.length ∧
        (s'.rounds.map (fun r => r.round_number) =
            seqNums (s.rounds.length + infos.length) ∨
          (infos.getLast?.map (fun i => i.type) = some "final_synthesis" ∧
            1 ≤ s.rounds.length + infos.length - 1 ∧
            s'.rounds.map (fun r => r.round_number) =
              seqNums (s.rounds.length + infos.length - 1) ++
                [s.rounds.length + infos.length - 1])) := by
  intro infos
  induction infos with
  | nil =>
    intro s ctr _ hinv
    exact ⟨s, ctr, rfl, by simp, Or.inl (by simpa using hinv)⟩
  | cons info rest ih =>
    intro s ctr hwf hinv
    simp only [wfFrom, Bool.and_eq_true, beq_iff_eq] at hwf
    obtain ⟨⟨⟨⟨⟨hround, hrec⟩, hor1⟩, hor2⟩, hor3⟩, hwfrest⟩ := hwf
    have h1 : info.type = "independent_generation" ∨ 1 ≤ s.rounds.length := by
      have h := hor1
      simp only [Bool.or_eq_true, beq_iff_eq, Nat.ble_eq] at h
      exact h
    have h2 : info.type = "improvement" ∨ info.type = "improvement_and_synthesis" →
        2 ≤ s.rounds.length := by
      intro hc
      have hb : (info.type == "improvement" ||
          info.type == "improvement_and_synthesis") = true := by
        rcases hc with hc | hc <;> simp [hc]
      rw [hb] at hor2
      simpa [Nat.ble_eq] using hor2
    have hfs : info.type = "final_synthesis" → rest = [] := by
      intro hc
      simp only [hc] at hor3
      simpa [List.isEmpty_iff] using hor3
    obtain ⟨r, c, hdisp, hnumor⟩ :=
      dispatchRound_spec env oracle q keys info s ctr hkeys hrec h1 h2
    rcases hnumor with hnum | ⟨htype, hlastr⟩
    · -- regular case: the dispatched entry appends a round numbered k+1
      have hlen2 : (s.add_round r).rounds.length = s.rounds.length + 1 := by
        simp [DebateSession.add_round]
      have hinv2 : (s.add_round r).rounds.map (fun x => x.round_number) =
          seqNums ((s.add_round r).rounds.length) := by
        simp only [DebateSession.add_round, List.map_append, List.map_cons,
          List.map_nil, hinv, hnum, hround, hlen2]
        simp [seqNums, hlen2]
      obtain ⟨s', c', hrun, hlen', hdisj⟩ := ih (s.add_round r) c
        (by rw [hlen2]; exact hwfrest) hinv2
      refine ⟨s', c', ?_, ?_, ?_⟩
      · simp only [runStructure, hdisp]
        exact hrun
      · rw [hlen', hlen2]
        simp only [List.length_cons]
        omega
      · rcases hdisj with hmap | ⟨hlast, hge, hmap⟩
        · left
          rw [hmap, hlen2]
          congr 1
          simp only [List.length_cons]
          omega
        · right
          have hrestne : rest ≠ [] := by
            intro hnil
            rw [hnil] at hlast
            simp at hlast
          refine ⟨?_, ?_, ?_⟩
          · rw [← hlast]
            congr 1
            cases rest with
            | nil => exact absurd rfl hrestne
            | cons b l => simp [List.getLast?_cons_cons]
          · rw [hlen2] at hge
            simp only [List.length_cons]
            omega
          · rw [hmap, hlen2]
            have harith : s.rounds.length + 1 + rest.length - 1 =
                s.rounds.length + (rest.length + 1) - 1 := by omega
            rw [harith]
            simp only [List.length_cons]
    · -- final-synthesis fallback: the previous round object is re-appended
      have hrest : rest = [] := hfs htype
      subst hrest
      have hk1 : 1 ≤ s.rounds.length := by
        rcases h1 with h' | h'
        · rw [htype] at h'; exact absurd h' (by decide)
        · exact h'
      have hrnum : r.round_number = s.rounds.length := by
        have hmapLast : (s.rounds.map (fun x => x.round_number)).getLast? =
            some s.rounds.length := by
          rw [hinv]
          exact seqNums_getLast? _ hk1
        rw [getLast?_map] at hmapLast
        rw [hlastr] at hmapLast
        simpa using hmapLast
      refine ⟨s.add_round r, c, ?_, ?_, ?_⟩
      · simp only [runStructure, hdisp]
      · simp [DebateSession.add_round]
      · right
        refine ⟨by simp [htype], ?_, ?_⟩
        · simp only [List.length_cons]
          omega
        · have harith : s.rounds.length + ([] : List RoundInfo).length + 1 - 1 =
              s.rounds.length := by simp
          simp only [List.length_cons, List.length_nil]
          rw [Nat.add_sub_cancel]
          simp only [DebateSession.add_round, List.map_append, List.map_cons,
            List.map_nil, hinv, hrnum]

/-- The completion tail leaves `rounds` unchanged, stores the token sum of
exactly those rounds, and sets the three completion fields together. -/
theorem finishSession_fields (env : OrchEnv) (s : DebateSession)
    (fa : String) (fc : ℚ) :
    (finishSession env s fa fc).rounds = s.rounds ∧
    (finishSession env s fa fc).total_tokens = sumTokens s.rounds ∧
    (finishSession env s fa fc).final_answer = some fa ∧
    (finishSession env s fa fc).final_confidence = some fc ∧
    (finishSession env s fa fc).completed_at = some env.now := by
  refine ⟨rfl, rfl, rfl, rfl, rfl⟩

/-- Every successful `start_debate` run ends in the completion tail: the
returned session is `finishSession` of the session accumulated by the round
loop. -/
theorem start_debate_some (env : OrchEnv) (oracle : CallOracle)
    (sid : String) (uid : Int) (q mode : String) (st : List RoundInfo)
    (keys : Option (List String)) (s : DebateSession)
    (h : start_debate env oracle sid uid q mode st keys = some s) :
    ∃ s1 ctr fa fc,
      runStructure env oracle q (keys.getD (env.models.map (fun p => p.1)))
        st (newSession sid uid q mode env.now) 0 = some (s1, ctr) ∧
      s = finishSession env s1 fa fc := by
  simp only [start_debate] at h
  split at h
  · exact absurd h (by simp)
  rename_i s1 ctr hrun
  split at h
  · exact absurd h (by simp)
  rename_i lastInfo hlast
  split at h
  · split at h
    · exact absurd h (by simp)
    rename_i fa fc c hsyn
    simp only [Option.some.injEq] at h
    exact ⟨s1, ctr, fa, fc, hrun, h.symm⟩
  · split at h
    · exact absurd h (by simp)
    rename_i lr hlr
    split at h
    · exact absurd h (by simp)
    rename_i resp hhd
    simp only [Option.some.injEq] at h
    exact ⟨s1, ctr, resp.content, pyOrQ resp.confidence 85, hrun, h.symm⟩

/-! ## Claim theorems -/

/-- C7: Confidence extraction: text containing "Confidence: 73%" yields
73.0; text containing "Уверенность: 40%" yields 40.0; text matching no
pattern yields absent (no fabricated default at this layer); with two
differently-labeled percentages the first pattern in the fixed priority
order (the Russian label pattern first) wins, regardless of which label
occurs earlier in the text. -/
theorem C7_confidence_extraction :
    extract_confidence "Мой анализ завершен. Confidence: 73%. Конец." = some 73 ∧
    extract_confidence "Итоговый ответ готов. Уверенность: 40% примерно." = some 40 ∧
    extract_confidence "Никаких меток и процентов здесь нет." = none ∧
    extract_confidence "Confidence: 73%. Уверенность: 40%." = some 40 := by
  refine ⟨by decide, by decide, by decide, by decide⟩

/-- C8 counterexample: the claim says matching is case-insensitive for any
letter casing, but `_extract_confidence` (which searches without
`re.IGNORECASE`) only tolerates case on the first letter of each phrase:
the fully-uppercase texts "CONFIDENCE: 85%" and "УВЕРЕННОСТЬ: 85%" contain
a confidence phrase in some letter casing yet yield absent, not 85.0. -/
theorem C8_counterexample :
    extract_confidence "CONFIDENCE: 85%" = none ∧
    extract_confidence "УВЕРЕННОСТЬ: 85%" = none := by
  exact ⟨by decide, by decide⟩

/-- C8 amended: confidence phrases are matched with case tolerance on the
first letter only (`[Уу]`, `[Cc]`, `[уУ]`, `[cC]`); the remainder of each
phrase must appear in the pattern's exact (lower-case) spelling, so
"Confidence: 85%"/"confidence: 85%" and "85% confidence"/"85% Confidence"
(and the Russian analogues) all yield 85.0, while fully-uppercase phrasings
yield absent. -/
theorem C8_amended :
    extract_confidence "Confidence: 85%" = some 85 ∧
    extract_confidence "confidence: 85%" = some 85 ∧
    extract_confidence "Уверенность: 85%" = some 85 ∧
    extract_confidence "уверенность: 85%" = some 85 ∧
    extract_confidence "85% confidence" = some 85 ∧
    extract_confidence "85% Confidence" = some 85 ∧
    extract_confidence "85% уверенность" = some 85 ∧
    extract_confidence "85% Уверенность" = some 85 ∧
    extract_confidence "CONFIDENCE: 85%" = none ∧
    extract_confidence "УВЕРЕННОСТЬ: 85%" = none := by
  refine ⟨by decide, by decide, by decide, by decide, by decide,
    by decide, by decide, by decide, by decide, by decide⟩

/-- A single-model client configuration with three retry attempts and a
fixed delay of 2 for concrete client-layer runs. -/
def cfgW : ClientConfig :=
  { models :=
      [("gemini", { name := "Gemini", id := "google/gemini",
                    temperature := some (7/10), max_tokens := some 4096,
                    reasoning := some "high", verbosity := some "high" })]
    retry_attempts := 3
    retry_delay := 2 }

/-- Attempt oracle on which every attempt times out. -/
def netFailW : Nat → AttemptOutcome := fun _ => .timeout

/-- Attempt oracle whose reply claims an out-of-range confidence. -/
def netOver : Nat → AttemptOutcome := fun _ =>
  .success { choices := [some "Я уверен. Confidence: 150%"],
             usage := some (some 42) }

/-- C5: the client funnels every failure to the same absence result: an
unknown backend key yields `None`; a run of failing attempts (timeout,
non-2xx, transport error, malformed body alike) is retried exactly up to
the configured attempt count with the fixed configured delay between
consecutive attempts (no exponential backoff), and exhausting all attempts
yields `None` — the embedding is a total function, so no exception reaches
the caller on any of these paths. -/
theorem C5_failure_funnel :
    (∀ (cfg : ClientConfig) (net : Nat → AttemptOutcome) (key : String)
        (msgs : List Message) (t : Option ℚ) (m : Option Nat),
        getModelConfig cfg key = none →
        get_response cfg net key msgs t m = none) ∧
    (∀ (net : Nat → AttemptOutcome) (d : ℚ) (ra : Nat),
        (∀ k, k < ra → (net k).isSuccess = false) →
        make_request net d ra = (none, List.replicate (ra - 1) d)) ∧
    (∀ (cfg : ClientConfig) (net : Nat → AttemptOutcome) (key : String)
        (msgs : List Message) (t : Option ℚ) (m : Option Nat),
        (∀ k, k < cfg.retry_attempts → (net k).isSuccess = false) →
        get_response cfg net key msgs t m = none) := by
  have hmk : ∀ (net : Nat → AttemptOutcome) (d : ℚ) (ra : Nat),
      (∀ k, k < ra → (net k).isSuccess = false) →
      make_request net d ra = (none, List.replicate (ra - 1) d) := by
    intro net d ra hfail
    exact make_request_go_all_fail net d ra 0 (fun k _ hk2 => hfail k (by omega))
  refine ⟨?_, hmk, ?_⟩
  · intro cfg net key msgs t m hnone
    simp [get_response, hnone]
  · intro cfg net key msgs t m hfail
    simp only [get_response]
    cases hmc : getModelConfig cfg key with
    | none => rfl
    | some mc =>
      rw [hmk net cfg.retry_delay cfg.retry_attempts hfail]

/-- C5 witness: concrete instances — the unknown key `"zzz"`, and a
three-attempt all-timeout run that sleeps the fixed delay twice and
returns `None`, both at the provided configuration. -/
theorem C5_witness :
    get_response cfgW netFailW "zzz" [] none none = none ∧
    make_request netFailW 2 3 = (none, [2, 2]) ∧
    get_response cfgW netFailW "gemini" [] none none = none := by
  refine ⟨?_, ?_, ?_⟩
  · exact C5_failure_funnel.1 cfgW netFailW "zzz" [] none none (by decide)
  · have h := C5_failure_funnel.2.1 netFailW 2 3 (fun k _ => rfl)
    simpa using h
  · exact C5_failure_funnel.2.2 cfgW netFailW "gemini" [] none none
      (fun k _ => rfl)

/-- C6: `get_multiple_responses` returns exactly the successful calls'
responses in input-key order, silently dropping failures: with three keys
whose middle call fails it returns the two successes in their input order,
and when every call fails it returns the empty sequence. -/
theorem C6_gather_order :
    (∀ (cfg : ClientConfig) (net : String → Nat → AttemptOutcome)
        (msgs : List Message) (t : Option ℚ) (m : Option Nat)
        (k1 k2 k3 : String) (r1 r3 : AIResponse),
        get_response cfg (net k1) k1 msgs t m = some r1 →
        get_response cfg (net k2) k2 msgs t m = none →
        get_response cfg (net k3) k3 msgs t m = some r3 →
        get_multiple_responses cfg net [k1, k2, k3] msgs t m = [r1, r3]) ∧
    (∀ (cfg : ClientConfig) (net : String → Nat → AttemptOutcome)
        (keys : List String) (msgs : List Message) (t : Option ℚ)
        (m : Option Nat),
        (∀ k, k ∈ keys → get_response cfg (net k) k msgs t m = none) →
        get_multiple_responses cfg net keys msgs t m = []) := by
  constructor
  · intro cfg net msgs t m k1 k2 k3 r1 r3 h1 h2 h3
    simp [get_multiple_responses, h1, h2, h3]
  · intro cfg net keys msgs t m hall
    induction keys with
    | nil => rfl
    | cons k rest ih =>
      simp only [get_multiple_responses, List.map_cons,
        hall k (List.mem_cons_self k rest), List.filterMap_cons]
      exact ih (fun k' hk' => hall k' (List.mem_cons_of_mem k hk'))

/-- A three-model client configuration for the C6 witness. -/
def cfg3 : ClientConfig :=
  { models :=
      [("a", { name := "A", id := "ma", temperature := none,
               max_tokens := none, reasoning := none, verbosity := none }),
       ("b", { name := "B", id := "mb", temperature := none,
               max_tokens := none, reasoning := none, verbosity := none }),
       ("c", { name := "C", id := "mc", temperature := none,
               max_tokens := none, reasoning := none, verbosity := none })]
    retry_attempts := 2
    retry_delay := 1 }

/-- Per-key attempt oracle whose backend `"b"` always fails. -/
def net3 : String → Nat → AttemptOutcome := fun k _ =>
  if k == "b" then .exn
  else .success { choices := [some "ok"], usage := some (some 3) }

/-- Per-key attempt oracle on which every backend always fails. -/
def net3fail : String → Nat → AttemptOutcome := fun _ _ => .timeout

/-- The response backend `"a"` delivers under `net3`. -/
def respA : AIResponse :=
  { model_key := "a", model_name := "A", content := "ok",
    confidence := none, timestamp := 0, tokens_used := some 3 }

/-- The response backend `"c"` delivers under `net3`. -/
def respC : AIResponse :=
  { model_key := "c", model_name := "C", content := "ok",
    confidence := none, timestamp := 0, tokens_used := some 3 }

/-- C6 witness: a concrete three-key fan-out with the middle backend always
failing returns exactly the two successes in input order, and an all-fail
fan-out returns the empty sequence. -/
theorem C6_witness :
    get_multiple_responses cfg3 net3 ["a", "b", "c"] [] none none =
      [respA, respC] ∧
    get_multiple_responses cfg3 net3fail ["a", "b", "c"] [] none none = [] := by
  constructor
  · exact C6_gather_order.1 cfg3 net3 [] none none "a" "b" "c" respA respC
      (by decide) (by decide) (by decide)
  · refine C6_gather_order.2 cfg3 net3fail ["a", "b", "c"] [] none none ?_
    intro k hk
    simp only [List.mem_cons, List.not_mem_nil, or_false] at hk
    rcases hk with rfl | rfl | rfl <;> decide

/-- C10 counterexample: the claim bounds extracted confidence by 100, but
the `(\d+)%` capture is unbounded: a backend reply containing
"Confidence: 150%" makes `get_response` deliver an `AIResponse` whose
confidence is 150.0 > 100. -/
theorem C10_counterexample :
    (get_response cfgW netOver "gemini" [] none none).map
        (fun r => r.confidence) = some (some 150) ∧
    ¬ ((150 : ℚ) ≤ 100) := by
  exact ⟨by decide, by norm_num⟩

/-- C10 amended: a present confidence on an `AIResponse` produced by
`get_response` is a non-negative rational (it is `float` of a digit-string
capture), but it is not bounded above by 100. -/
theorem C10_amended (cfg : ClientConfig) (net : Nat → AttemptOutcome)
    (key : String) (msgs : List Message) (t : Option ℚ) (m : Option Nat)
    (r : AIResponse) (q : ℚ)
    (hr : get_response cfg net key msgs t m = some r)
    (hq : r.confidence = some q) : 0 ≤ q := by
  have hext : ∀ (s : String) (v : ℚ), extract_confidence s = some v → 0 ≤ v := by
    intro s v hv
    simp only [extract_confidence] at hv
    cases e1 : searchBy (matchLabelNum 'У' 'у' "веренность".data) s.data with
    | some n => rw [e1] at hv; simp only [Option.some.injEq] at hv
                rw [← hv]; exact Nat.cast_nonneg n
    | none =>
      rw [e1] at hv
      cases e2 : searchBy (matchLabelNum 'C' 'c' "onfidence".data) s.data with
      | some n => rw [e2] at hv; simp only [Option.some.injEq] at hv
                  rw [← hv]; exact Nat.cast_nonneg n
      | none =>
        rw [e2] at hv
        cases e3 : searchBy (matchNumLabel 'у' 'У' "веренност".data) s.data with
        | some n => rw [e3] at hv; simp only [Option.some.injEq] at hv
                    rw [← hv]; exact Nat.cast_nonneg n
        | none =>
          rw [e3] at hv
          cases e4 : searchBy (matchNumLabel 'c' 'C' "onfiden".data) s.data with
          | some n => rw [e4] at hv; simp only [Option.some.injEq] at hv
                      rw [← hv]; exact Nat.cast_nonneg n
          | none => rw [e4] at hv; exact absurd hv (by simp)
  simp only [get_response] at hr
  cases hmc : getModelConfig cfg key with
  | none => rw [hmc] at hr; exact absurd hr (by simp)
  | some mc =>
    rw [hmc] at hr
    cases hresp : (make_request net cfg.retry_delay cfg.retry_attempts).1 with
    | none => rw [hresp] at hr; exact absurd hr (by simp)
    | some resp =>
      rw [hresp] at hr
      simp only [Option.some.injEq] at hr
      rw [← hr] at hq
      simp only at hq
      exact hext resp.get_content q hq

/-- The `AIResponse` the over-confident reply of `netOver` produces. -/
def respOver : AIResponse :=
  { model_key := "gemini", model_name := "Gemini",
    content := "Я уверен. Confidence: 150%",
    confidence := some 150, timestamp := 0, tokens_used := some 42 }

/-- C10 amended witness: the amended bound applied at the concrete
over-confident run. -/
theorem C10_amended_witness : (0 : ℚ) ≤ 150 :=
  C10_amended cfgW netOver "gemini" [] none none respOver 150
    (by decide) (by decide)

/-- C4: when the fallback synthesizer call fails and the last round is
nonempty, `_synthesize_final_answer` returns the content of the
highest-confidence response of the last round, ties at the maximum broken
by encounter (input) order — the chosen response is preceded only by
strictly smaller keys and followed only by no-larger keys — and a missing
confidence is defaulted to 80.0 exactly here.  The second part lifts this
to `start_debate`: for a mode whose last structural round type is not
`final_synthesis` and a synthesizer backend that never answers, the
session's final answer and confidence are exactly that best response's. -/
theorem C4_fallback_best :
    (∀ (env : OrchEnv) (oracle : CallOracle) (q : String)
        (session : DebateSession) (ctr : Nat) (lr : DebateRound),
        session.rounds.getLast? = some lr →
        lr.responses ≠ [] →
        oracle ctr "chatgpt"
          [⟨"system", env.system_base⟩,
           ⟨"user", "Вопрос: " ++ q ++ "\n\nВсе ответы из дебатов:\n" ++
              format_all_rounds env session.rounds ++
              "\n\nСинтезируй финальный ответ."⟩] = none →
        ∃ best l1 l2,
          maxByConf lr.responses = some best ∧
          synthesize_final_answer env oracle q session ctr =
            some (best.content, pyOrQ best.confidence 80, ctr + 1) ∧
          lr.responses = l1 ++ best :: l2 ∧
          (∀ r ∈ l1, confKey r < confKey best) ∧
          (∀ r ∈ l2, confKey r ≤ confKey best) ∧
          (best.confidence = none → pyOrQ best.confidence 80 = 80)) ∧
    (∀ (env : OrchEnv) (oracle : CallOracle) (sid : String) (uid : Int)
        (q mode : String) (st : List RoundInfo) (keys : Option (List String))
        (s : DebateSession) (lastInfo : RoundInfo),
        st.getLast? = some lastInfo →
        lastInfo.type ≠ "final_synthesis" →
        (∀ c msgs, oracle c "chatgpt" msgs = none) →
        start_debate env oracle sid uid q mode st keys = some s →
        ∃ lr best,
          s.rounds.getLast? = some lr ∧
          maxByConf lr.responses = some best ∧
          s.final_answer = some best.content ∧
          s.final_confidence = some (pyOrQ best.confidence 80)) := by
  constructor
  · intro env oracle q session ctr lr hlast hne hfail
    cases hb : maxByConf lr.responses with
    | none =>
      exfalso
      cases hres : lr.responses with
      | nil => exact hne hres
      | cons x xs => rw [hres] at hb; simp [maxByConf] at hb
    | some best =>
      obtain ⟨l1, l2, heq, hpre, hsuf⟩ := maxByConf_first_max lr.responses best hb
      refine ⟨best, l1, l2, rfl, ?_, heq, hpre, hsuf,
        fun hnone => by simp [pyOrQ, hnone]⟩
      simp only [synthesize_final_answer, hfail, hlast, hb]
  · intro env oracle sid uid q mode st keys s lastInfo hlastst hnotfs hfail h
    simp only [start_debate] at h
    split at h
    · exact absurd h (by simp)
    rename_i s1 ctr hrun
    split at h
    · exact absurd h (by simp)
    rename_i lastInfo0 hlast0
    have hsame : lastInfo0 = lastInfo := by
      rw [hlastst] at hlast0
      exact (Option.some.injEq _ _ ▸ hlast0).symm
    subst hsame
    rw [if_pos (by simpa [bne_iff_ne] using hnotfs)] at h
    simp only [synthesize_final_answer, hfail] at h
    split at h
    · exact absurd h (by simp)
    rename_i fa fc c' hlr
    split at hlr
    · exact absurd hlr (by simp)
    rename_i lr hlast1
    split at hlr
    · exact absurd hlr (by simp)
    rename_i best hbest
    simp only [Option.some.injEq, Prod.mk.injEq] at hlr
    obtain ⟨hfa, hfc, _⟩ := hlr
    simp only [Option.some.injEq] at h
    refine ⟨lr, best, ?_, hbest, ?_, ?_⟩
    · rw [← h]
      exact hlast1
    · rw [← h, ← hfa]
      rfl
    · rw [← h, ← hfc]
      rfl

/-- A last-round response with confidence 70. -/
def resp70 : AIResponse := mkResp "gemini" "Gemini" "Ответ A. Уверенность: 70%" 5

/-- First last-round response with the maximal confidence 90. -/
def resp90a : AIResponse := mkResp "gemini" "Gemini" "Ответ B. Уверенность: 90%" 5

/-- Second (later) last-round response also with confidence 90. -/
def resp90b : AIResponse := mkResp "chatgpt" "ChatGPT" "Ответ C. Уверенность: 90%" 5

/-- A concrete last round with a confidence tie at 90. -/
def roundW4 : DebateRound := ⟨1, [resp70, resp90a, resp90b], none, 0⟩

/-- A concrete session whose only round is `roundW4`. -/
def sessW4 : DebateSession :=
  { newSession "s4" 1 "q" "standard" 100 with rounds := [roundW4] }

/-- C4 witness: the fallback applied to a concrete failed-synthesizer run
with a 70/90/90 confidence profile; the second conjunct checks that the
chosen best response is the first of the two responses tied at 90. -/
theorem C4_witness :
    (∃ best l1 l2,
      maxByConf roundW4.responses = some best ∧
      synthesize_final_answer envW oracleAllFail "q" sessW4 0 =
        some (best.content, pyOrQ best.confidence 80, 0 + 1) ∧
      roundW4.responses = l1 ++ best :: l2 ∧
      (∀ r ∈ l1, confKey r < confKey best) ∧
      (∀ r ∈ l2, confKey r ≤ confKey best) ∧
      (best.confidence = none → pyOrQ best.confidence 80 = 80)) ∧
    maxByConf roundW4.responses = some resp90a := by
  constructor
  · exact C4_fallback_best.1 envW oracleAllFail "q" sessW4 0 roundW4
      (by decide) (by decide) rfl
  · decide

/-- C9: for every session returned by `start_debate`, `total_tokens` equals
the exact sum of `tokens_used` (absent counted as 0) over every response in
every round of that session; the sum over rounds that are all empty is 0. -/
theorem C9_total_tokens :
    (∀ (env : OrchEnv) (oracle : CallOracle) (sid : String) (uid : Int)
        (q mode : String) (st : List RoundInfo) (keys : Option (List String))
        (s : DebateSession),
        start_debate env oracle sid uid q mode st keys = some s →
        s.total_tokens = sumTokens s.rounds) ∧
    (∀ rounds : List DebateRound,
        (∀ r ∈ rounds, r.responses = []) → sumTokens rounds = 0) := by
  constructor
  · intro env oracle sid uid q mode st keys s h
    obtain ⟨s1, ctr, fa, fc, _, hs⟩ :=
      start_debate_some env oracle sid uid q mode st keys s h
    rw [hs]
    rfl
  · intro rounds hall
    induction rounds with
    | nil => rfl
    | cons r rest ih =>
      have hr : r.responses = [] := hall r (List.mem_cons_self r rest)
      have hrest := ih (fun r' hr' => hall r' (List.mem_cons_of_mem r hr'))
      simp [sumTokens, hr]
      simpa [sumTokens] using hrest

/-- Oracle on which every backend call succeeds, with token counts varying
by call index so the token sum is non-trivial. -/
def oracleQuickOK : CallOracle := fun ctr key _ =>
  some (mkResp key key "Ответ. Уверенность: 80%" (ctr + 1))

/-- C9 witness: a concrete successful quick-mode run; its token total
equals the sum over its recorded rounds, concretely 15 = 1+2+3+4+5 over the
five calls. -/
theorem C9_witness :
    ∃ s, start_debate envW oracleQuickOK "sid" 1 "q" "quick" quickStructure
        (some ["gemini", "chatgpt"]) = some s ∧
      s.total_tokens = sumTokens s.rounds ∧ s.total_tokens = 15 := by
  cases hrun : start_debate envW oracleQuickOK "sid" 1 "q" "quick"
      quickStructure (some ["gemini", "chatgpt"]) with
  | none => exact absurd hrun (by decide)
  | some s =>
    have h15 : (start_debate envW oracleQuickOK "sid" 1 "q" "quick"
        quickStructure (some ["gemini", "chatgpt"])).map
          (fun x => x.total_tokens) = some 15 := by decide
    rw [hrun] at h15
    simp only [Option.map_some'] at h15
    refine ⟨s, rfl, ?_, by simpa using h15⟩
    exact C9_total_tokens.1 envW oracleQuickOK "sid" 1 "q" "quick"
      quickStructure (some ["gemini", "chatgpt"]) s hrun

/-- C2: `completed_at` is set iff `final_answer` is set, at every point of
the modelled lifecycle: a fresh session has all three completion fields
absent, `DebateSession.complete` sets `final_answer`, `final_confidence`
and `completed_at` together, the round loop never touches them (so they
stay absent until the single `complete` call of `start_debate`), and every
session `start_debate` returns has all three present. -/
theorem C2_completion_invariant :
    (∀ (sid : String) (uid : Int) (q mode : String) (now : Nat),
        (newSession sid uid q mode now).final_answer = none ∧
        (newSession sid uid q mode now).completed_at = none ∧
        (newSession sid uid q mode now).final_confidence = none) ∧
    (∀ (s : DebateSession) (fa : String) (fc : ℚ) (now : Nat),
        (s.complete fa fc now).final_answer = some fa ∧
        (s.complete fa fc now).final_confidence = some fc ∧
        (s.complete fa fc now).completed_at = some now) ∧
    (∀ (env : OrchEnv) (oracle : CallOracle) (q : String)
        (keys : List String) (infos : List RoundInfo) (s : DebateSession)
        (ctr : Nat) (s' : DebateSession) (ctr' : Nat),
        runStructure env oracle q keys infos s ctr = some (s', ctr') →
        s'.final_answer = s.final_answer ∧ s'.completed_at = s.completed_at ∧
          s'.final_confidence = s.final_confidence) ∧
    (∀ (env : OrchEnv) (oracle : CallOracle) (sid : String) (uid : Int)
        (q mode : String) (st : List RoundInfo) (keys : Option (List String))
        (s : DebateSession),
        start_debate env oracle sid uid q mode st keys = some s →
        s.final_answer.isSome ∧ s.completed_at.isSome ∧
          s.final_confidence.isSome ∧
          (s.completed_at.isSome ↔ s.final_answer.isSome)) := by
  refine ⟨fun _ _ _ _ _ => ⟨rfl, rfl, rfl⟩,
    fun _ _ _ _ => ⟨rfl, rfl, rfl⟩,
    fun env oracle q keys infos s ctr s' ctr' h =>
      runStructure_fields env oracle q keys infos s ctr s' ctr' h, ?_⟩
  intro env oracle sid uid q mode st keys s h
  obtain ⟨s1, ctr, fa, fc, _, hs⟩ :=
    start_debate_some env oracle sid uid q mode st keys s h
  rw [hs]
  exact ⟨rfl, rfl, rfl, Iff.rfl⟩

/-- C2 witness: the completion invariant applied at a concrete successful
quick-mode run. -/
theorem C2_witness :
    ∃ s, start_debate envW oracleQuickOK "s2" 1 "q" "quick" quickStructure
        (some ["gemini", "chatgpt"]) = some s ∧
      s.final_answer.isSome ∧ s.completed_at.isSome ∧
      (s.completed_at.isSome ↔ s.final_answer.isSome) := by
  cases hrun : start_debate envW oracleQuickOK "s2" 1 "q" "quick"
      quickStructure (some ["gemini", "chatgpt"]) with
  | none => exact absurd hrun (by decide)
  | some s =>
    obtain ⟨h1, h2, _, h4⟩ := C2_completion_invariant.2.2.2 envW oracleQuickOK
      "s2" 1 "q" "quick" quickStructure (some ["gemini", "chatgpt"]) s hrun
    exact ⟨s, rfl, h1, h2, h4⟩

/-- C3: when every backend call fails on mode quick, the rounds themselves
are recorded (both present with 0 responses, so the round loop and the
round-2 critique context over an empty round 1 do not raise), but
`start_debate` then dies in the final-answer fallback:
`_synthesize_final_answer` evaluates `max()` over the empty response list
of the last round and the `ValueError` propagates (`none`), so no completed
session is returned — contradicting the claim. -/
theorem C3_all_backends_fail_raises :
    (∀ (ctr : Nat) (key : String) (msgs : List Message),
        oracleAllFail ctr key msgs = none) ∧
    (runStructure envW oracleAllFail "q" ["gemini", "chatgpt"] quickStructure
        (newSession "sid" 1 "q" "quick" envW.now) 0).map
      (fun p => p.1.rounds.map (fun r => (r.round_number, r.responses.length)))
      = some [(1, 0), (2, 0)] ∧
    start_debate envW oracleAllFail "sid" 1 "q" "quick" quickStructure
      (some ["gemini", "chatgpt"]) = none := by
  exact ⟨fun _ _ _ => rfl, by decide, by decide⟩

/-- C1 counterexample: a deep (five-round, `final_synthesis`-terminated)
run in which only the final-synthesis backend call fails.  The handler
falls back to the preceding round object and `start_debate` appends it
again: the recorded round numbers are `[1, 2, 3, 4, 4]`, so
`rounds[4].round_number = 4 ≠ 4 + 1 = 5` and the sequence is not strictly
increasing — the claim fails on exactly the scenario it singles out. -/
theorem C1_counterexample :
    (start_debate envW oracleDeepSynthFail "sid" 1 "q" "deep" deepStructure
        (some ["gemini", "chatgpt"])).map
      (fun s => s.rounds.map (fun r => r.round_number)) =
      some [1, 2, 3, 4, 4] ∧
    ¬ List.Pairwise (· < ·) ([1, 2, 3, 4, 4] : List Nat) ∧
    ([1, 2, 3, 4, 4] : List Nat).get? 4 ≠ some (4 + 1) := by
  exact ⟨by decide, by decide, by decide⟩

/-- C1 amended: for every wellformed mode structure and resolvable key set,
a session returned by `start_debate` has exactly one recorded round per
dispatched entry, and its round numbers are exactly `[1, …, n]` — except
when the structure ends in `final_synthesis` and that round's backend call
failed, in which case the preceding round object is appended a second time
and the numbers are `[1, …, n-1, n-1]`. -/
theorem C1_amended (env : OrchEnv) (oracle : CallOracle) (sid : String)
    (uid : Int) (q mode : String) (st : List RoundInfo)
    (keys : Option (List String)) (s : DebateSession)
    (hkeys : keysValid env (keys.getD (env.models.map (fun p => p.1))) = true)
    (hwf : wfFrom 0 st = true)
    (h : start_debate env oracle sid uid q mode st keys = some s) :
    s.rounds.length = st.length ∧
    (s.rounds.map (fun r => r.round_number) = seqNums st.length ∨
      (st.getLast?.map (fun i => i.type) = some "final_synthesis" ∧
        s.rounds.map (fun r => r.round_number) =
          seqNums (st.length - 1) ++ [st.length - 1])) := by
  obtain ⟨s1, ctr, fa, fc, hrun, hs⟩ :=
    start_debate_some env oracle sid uid q mode st keys s h
  obtain ⟨s', ctr', hrun', hlen, hdisj⟩ :=
    runStructure_spec env oracle q (keys.getD (env.models.map (fun p => p.1)))
      hkeys st (newSession sid uid q mode env.now) 0 hwf rfl
  rw [hrun] at hrun'
  simp only [Option.some.injEq, Prod.mk.injEq] at hrun'
  obtain ⟨hseq, _⟩ := hrun'
  subst hseq
  have hrounds : s.rounds = s1.rounds := by rw [hs]; rfl
  constructor
  · rw [hrounds, hlen]
    simp [newSession]
  · rcases hdisj with hmap | ⟨hlastfs, _, hmap⟩
    · left
      rw [hrounds, hmap]
      simp [newSession]
    · right
      refine ⟨hlastfs, ?_⟩
      rw [hrounds, hmap]
      simp [newSession]

/-- Oracle on which every backend call succeeds (for the amended C1 run
where the final synthesis also succeeds). -/
def oracleDeepOK : CallOracle := fun _ key _ =>
  some (mkResp key key "Ответ. Уверенность: 85%" 3)

/-- C1 amended witness: the amended invariant applied at a concrete fully
successful deep run (round numbers `[1, 2, 3, 4, 5]`). -/
theorem C1_amended_witness :
    ∃ s, start_debate envW oracleDeepOK "sid" 1 "q" "deep" deepStructure
        (some ["gemini", "chatgpt"]) = some s ∧
      s.rounds.length = deepStructure.length ∧
      (s.rounds.map (fun r => r.round_number) = seqNums deepStructure.length ∨
        (deepStructure.getLast?.map (fun i => i.type) = some "final_synthesis" ∧
          s.rounds.map (fun r => r.round_number) =
            seqNums (deepStructure.length - 1) ++ [deepStructure.length - 1])) := by
  cases hrun : start_debate envW oracleDeepOK "sid" 1 "q" "deep" deepStructure
      (some ["gemini", "chatgpt"]) with
  | none => exact absurd hrun (by decide)
  | some s =>
    refine ⟨s, rfl, ?_⟩
    exact C1_amended envW oracleDeepOK "sid" 1 "q" "deep" deepStructure
      (some ["gemini", "chatgpt"]) s (by decide) (by decide) hrun
